import Mathlib

/-!
Shallow embedding of the breathing-visualizer app (src/app.js): the exercise
catalog, the session clock arithmetic of `animate`, and the session state
machine (`togglePlay`, `resetToStart`, `startWithPreset`, `startWithRounds`,
per-tick `animate`).  JavaScript numbers are modelled as exact rationals,
`performance.now()` timestamps as rational milliseconds, `null` timestamps as
`Option`, and the `timeLimit` text field as a string of digits.
-/

/-- One phase of a breathing cycle, as in the `getPhases` results of
`exerciseTypes` in src/app.js. -/
structure Phase where
  name : String
  duration : ℚ
  color : String
deriving DecidableEq, Repr

/-- The four keys of the `exerciseTypes` object. -/
inductive ExerciseType where
  | box
  | fourSevenEight
  | longExhale
  | coherent
deriving DecidableEq, Repr

/-- The `getPhases` function of each exercise type.  `box` and `coherent` use
the first argument (`phaseTime`), `longExhale` ignores it and uses the second
(`exhaleDuration`), `fourSevenEight` ignores both. -/
def ExerciseType.getPhases : ExerciseType → ℚ → ℚ → List Phase
  | .box, phaseTime, _ =>
      [⟨"Inhale", phaseTime, "#f97316"⟩,
       ⟨"Hold", phaseTime, "#fbbf24"⟩,
       ⟨"Exhale", phaseTime, "#38bdf8"⟩,
       ⟨"Wait", phaseTime, "#22c55e"⟩]
  | .fourSevenEight, _, _ =>
      [⟨"Inhale", 4, "#f97316"⟩,
       ⟨"Hold", 7, "#fbbf24"⟩,
       ⟨"Exhale", 8, "#38bdf8"⟩]
  | .longExhale, _, exhaleDuration =>
      [⟨"Inhale", 4, "#f97316"⟩,
       ⟨"Exhale", exhaleDuration, "#38bdf8"⟩]
  | .coherent, phaseTime, _ =>
      [⟨"Inhale", phaseTime, "#f97316"⟩,
       ⟨"Exhale", phaseTime, "#38bdf8"⟩]

/-- Whether the exercise type has a phase-time slider (`hasPhaseTimeSlider`). -/
def ExerciseType.hasSlider : ExerciseType → Bool
  | .box => true
  | .fourSevenEight => false
  | .longExhale => true
  | .coherent => true

/-- The `phaseTimeRange.default` of each exercise type (unused for
`fourSevenEight`, which has no slider). -/
def ExerciseType.sliderDefault : ExerciseType → ℚ
  | .box => 4
  | .fourSevenEight => 0
  | .longExhale => 6
  | .coherent => 5

/-- The mutable `state` object of src/app.js, restricted to the fields that
drive the session logic (presentation-only fields such as `pulseStartTime`,
viewport size and reduced-motion are omitted). -/
structure AppState where
  isPlaying : Bool
  count : Nat
  countdown : ℚ
  totalTime : ℤ
  soundEnabled : Bool
  countdownEnabled : Bool
  timeLimit : String
  sessionComplete : Bool
  timeLimitReached : Bool
  phaseTime : ℚ
  exhaleDuration : ℚ
  exerciseType : ExerciseType
  hasStarted : Bool
  startTime : Option ℚ
  targetRounds : Nat
  completedRounds : Nat
deriving DecidableEq, Repr

/-- The initial `state` literal of src/app.js. -/
def initState : AppState where
  isPlaying := false
  count := 0
  countdown := 4
  totalTime := 0
  soundEnabled := false
  countdownEnabled := false
  timeLimit := ""
  sessionComplete := false
  timeLimitReached := false
  phaseTime := 4
  exhaleDuration := 6
  exerciseType := ExerciseType.box
  hasStarted := false
  startTime := none
  targetRounds := 0
  completedRounds := 0

/-- `getCurrentPhases()`: resolve the active pattern's phases from the state's
exercise type and duration parameters. -/
def getCurrentPhases (s : AppState) : List Phase :=
  s.exerciseType.getPhases s.phaseTime s.exhaleDuration

/-- `getTotalCycleTime()`: left fold of the phase durations starting at 0,
mirroring `reduce((sum, phase) => sum + phase.duration, 0)`. -/
def getTotalCycleTime (s : AppState) : ℚ :=
  (getCurrentPhases s).foldl (fun sum p => sum + p.duration) 0

/-- Truncation toward zero, the rounding JavaScript's `%` operator applies to
the quotient. -/
def jsTrunc (q : ℚ) : ℤ :=
  if 0 ≤ q then ⌊q⌋ else ⌈q⌉

/-- JavaScript's remainder operator `a % b` on exact rationals: the remainder
keeps the sign of the dividend. -/
def jsMod (a b : ℚ) : ℚ :=
  a - b * (jsTrunc (a / b) : ℚ)

/-- The phase-lookup loop of `animate` (src/app.js lines 580-592): walk the
phases accumulating durations; on the first phase whose window contains the
cycle position, return its index and accumulated start; if the loop falls
through, the initial values `newCount = 0`, `phaseStartTime = 0` survive. -/
def findPhaseAux : List Phase → ℚ → Nat → ℚ → Nat × ℚ
  | [], _, _, _ => (0, 0)
  | p :: rest, cycleElapsed, i, acc =>
    if acc ≤ cycleElapsed ∧ cycleElapsed < acc + p.duration then (i, acc)
    else findPhaseAux rest cycleElapsed (i + 1) (acc + p.duration)

/-- Entry point of the phase-lookup loop with the source's initial values. -/
def findPhase (phases : List Phase) (cycleElapsed : ℚ) : Nat × ℚ :=
  findPhaseAux phases cycleElapsed 0 0

/-- A default phase standing for JavaScript's out-of-bounds access result;
never reached on the patterns of the catalog. -/
def phaseAt (phases : List Phase) (i : Nat) : Phase :=
  phases.getD i ⟨"", 0, ""⟩

/-- Duration of the `i`-th phase of a list. -/
def durAt (phases : List Phase) (i : Nat) : ℚ :=
  (phaseAt phases i).duration

/-- Accumulated start time of the `i`-th phase: the sum of the durations of
the phases before it. -/
def accStart : List Phase → Nat → ℚ
  | [], _ => 0
  | _ :: _, 0 => 0
  | p :: rest, i + 1 => p.duration + accStart rest i

/-- The matching condition of the phase-lookup loop at index `i`:
accumulated-start ≤ cycle position < accumulated-start + duration. -/
def matchesAt (phases : List Phase) (cycleElapsed : ℚ) (i : Nat) : Prop :=
  accStart phases i ≤ cycleElapsed ∧
    cycleElapsed < accStart phases i + durAt phases i

instance (phases : List Phase) (c : ℚ) (i : Nat) :
    Decidable (matchesAt phases c i) := by
  unfold matchesAt
  infer_instance

/-- The countdown computation of `animate` (src/app.js lines 596-603):
`remaining = duration - phaseElapsed`; if the duration has a fractional part
(`duration % 1 !== 0`) and `remaining > Math.floor(duration)`, the countdown
is the exact fractional duration, otherwise `Math.ceil(remaining)`. -/
def countdownValue (duration phaseElapsed : ℚ) : ℚ :=
  let remaining := duration - phaseElapsed
  if jsMod duration 1 ≠ 0 ∧ (⌊duration⌋ : ℚ) < remaining then duration
  else (⌈remaining⌉ : ℚ)

/-- The per-tick quantities `animate` derives from wall-clock time. -/
structure ClockPos where
  newTotalTime : ℤ
  cycleElapsed : ℚ
  newCount : Nat
  phaseStartTime : ℚ
  newCountdown : ℚ
deriving DecidableEq, Repr

/-- The session-clock part of `animate`: total elapsed seconds (floored for
display), cycle position via `%`, active phase via the lookup loop, and the
countdown.  A `null` start time coerces to 0 as in JavaScript. -/
def computeClock (s : AppState) (now : ℚ) : ClockPos :=
  let phases := getCurrentPhases s
  let totalElapsed := (now - s.startTime.getD 0) / 1000
  let cycleElapsed := jsMod totalElapsed (getTotalCycleTime s)
  let fp := findPhase phases cycleElapsed
  { newTotalTime := ⌊totalElapsed⌋
    cycleElapsed := cycleElapsed
    newCount := fp.1
    phaseStartTime := fp.2
    newCountdown := countdownValue (durAt phases fp.1) (cycleElapsed - fp.2) }

/-- Numeric value of a digit list, most significant first. -/
def digitsToNat (l : List Char) : Nat :=
  l.foldl (fun a c => a * 10 + (c.toNat - 48)) 0

/-- `parseInt(s) || 0` on the digit strings the time-limit field holds:
`parseInt('')` is `NaN`, which `|| 0` turns into 0. -/
def parseIntOrZero (s : String) : Nat :=
  if s = "" then 0 else digitsToNat s.data

/-- `parseInt(state.timeLimit) * 60 || 0`, the time limit in seconds. -/
def timeLimitSecondsOf (s : AppState) : ℤ :=
  (parseIntOrZero s.timeLimit * 60 : Nat)

/-- The digit filter of `handleTimeLimitChange`:
`value.replace(/[^0-9]/g, '')`. -/
def stripNonDigits (s : String) : String :=
  ⟨s.data.filter Char.isDigit⟩

/-- `togglePlay()` (src/app.js lines 333-378): flip `isPlaying`; the start
branch initializes the runtime fields and, for 4-7-8 with a non-empty time
limit, reinterprets the limit as a round target; the pause branch clears the
runtime fields but leaves `timeLimit` untouched. -/
def togglePlay (s : AppState) (now : ℚ) : AppState :=
  let s := { s with isPlaying := !s.isPlaying }
  if s.isPlaying then
    { s with
      hasStarted := true
      totalTime := 0
      countdown := (⌈durAt (getCurrentPhases s) 0⌉ : ℚ)
      count := 0
      sessionComplete := false
      timeLimitReached := false
      completedRounds := 0
      targetRounds :=
        if s.exerciseType = ExerciseType.fourSevenEight ∧ s.timeLimit ≠ ""
        then parseIntOrZero s.timeLimit else 0
      startTime := some now }
  else
    { s with
      totalTime := 0
      countdown := (⌈durAt (getCurrentPhases s) 0⌉ : ℚ)
      count := 0
      sessionComplete := false
      timeLimitReached := false
      hasStarted := false
      targetRounds := 0
      completedRounds := 0
      startTime := none }

/-- `resetToStart()` (src/app.js lines 380-399): clear all runtime state
including the `timeLimit` string; configuration fields persist. -/
def resetToStart (s : AppState) : AppState :=
  { s with
    isPlaying := false
    totalTime := 0
    countdown := (⌈durAt (getCurrentPhases s) 0⌉ : ℚ)
    count := 0
    sessionComplete := false
    timeLimit := ""
    timeLimitReached := false
    hasStarted := false
    startTime := none
    targetRounds := 0
    completedRounds := 0 }

/-- `startWithPreset(minutes)` (src/app.js lines 424-447): start a session
with a minute-based time limit and no round target. -/
def startWithPreset (s : AppState) (minutes : Nat) (now : ℚ) : AppState :=
  { s with
    timeLimit := toString minutes
    targetRounds := 0
    completedRounds := 0
    isPlaying := true
    totalTime := 0
    countdown := (⌈durAt (getCurrentPhases s) 0⌉ : ℚ)
    count := 0
    sessionComplete := false
    timeLimitReached := false
    hasStarted := true
    startTime := some now }

/-- `startWithRounds(rounds)` (src/app.js lines 449-472): start a session
with a round target and an empty time limit. -/
def startWithRounds (s : AppState) (rounds : Nat) (now : ℚ) : AppState :=
  { s with
    targetRounds := rounds
    completedRounds := 0
    timeLimit := ""
    isPlaying := true
    totalTime := 0
    countdown := (⌈durAt (getCurrentPhases s) 0⌉ : ℚ)
    count := 0
    sessionComplete := false
    timeLimitReached := false
    hasStarted := true
    startTime := some now }

/-- `setExerciseType(type)` (src/app.js lines 411-422): change the exercise;
sliders reset to the pattern's default value. -/
def setExerciseType (s : AppState) (t : ExerciseType) : AppState :=
  { s with
    exerciseType := t
    phaseTime := if t.hasSlider then t.sliderDefault else s.phaseTime
    exhaleDuration :=
      if t = ExerciseType.longExhale then t.sliderDefault else s.exhaleDuration }

/-- The session-completion assignment shared by both completion branches of
`animate`: `sessionComplete = true`, `isPlaying = false`,
`hasStarted = false`. -/
def completeSession (s : AppState) : AppState :=
  { s with sessionComplete := true, isPlaying := false, hasStarted := false }

/-- The time-limit check of `animate` (src/app.js lines 612-616): if the
time-limit string is non-empty, the flag is not yet set and the displayed
total time has reached the limit in seconds, set `timeLimitReached`. -/
def applyTimeLimitCheck (s : AppState) : AppState :=
  if s.timeLimit ≠ "" ∧ s.timeLimitReached = false ∧
      timeLimitSecondsOf s ≤ s.totalTime
  then { s with timeLimitReached := true } else s

/-- The phase-transition block of `animate` (src/app.js lines 625-652), run
only when the phase index changed: on a wraparound from the last phase to
phase 0, increment `completedRounds`, complete the session if a 4-7-8 round
target has been met, and independently complete it if `timeLimitReached`
holds. -/
def applyTransition (s : AppState) (previousCount newCount numPhases : Nat) :
    AppState :=
  let sA :=
    if previousCount = numPhases - 1 ∧ newCount = 0 then
      let sB := { s with completedRounds := s.completedRounds + 1 }
      if sB.exerciseType = ExerciseType.fourSevenEight ∧ 0 < sB.targetRounds ∧
          sB.targetRounds ≤ sB.completedRounds
      then completeSession sB else sB
    else s
  if previousCount = numPhases - 1 ∧ newCount = 0 ∧ sA.timeLimitReached = true
  then completeSession sA else sA

/-- The state updates of one `animate` tick (src/app.js lines 566-667), after
the clock quantities have been computed: store the floored total time, run the
time-limit check, store the new phase index, run the transition block if the
index changed, store the new countdown. -/
def animateBody (s : AppState) (now : ℚ) : AppState :=
  let c := computeClock s now
  let s2 := applyTimeLimitCheck { s with totalTime := c.newTotalTime }
  let s3 := { s2 with count := c.newCount }
  let s4 :=
    if c.newCount ≠ s.count
    then applyTransition s3 s.count c.newCount (getCurrentPhases s).length
    else s3
  { s4 with countdown := c.newCountdown }

/-- One `animate` tick: the body runs only while playing (`if
(!state.isPlaying) return`). -/
def animate (s : AppState) (now : ℚ) : AppState :=
  if s.isPlaying then animateBody s now else s

/-- The user-facing and host-facing events that drive the state machine. -/
inductive Event where
  | tick (now : ℚ)
  | togglePlay (now : ℚ)
  | startPreset (minutes : Nat) (now : ℚ)
  | startRounds (rounds : Nat) (now : ℚ)
  | reset
  | setTimeLimit (value : String)
  | setExercise (t : ExerciseType)
  | toggleSound
  | toggleCountdown
  | setSlider (value : ℚ)
deriving DecidableEq, Repr

/-- One step of the state machine.  Guards mirror which controls the `render`
function actually wires up in each state: the play/pause button exists unless
the session is complete, the reset button only when it is, and the settings,
preset and slider controls only while idle. -/
def step (s : AppState) : Event → AppState
  | .tick now => animate s now
  | .togglePlay now => if s.sessionComplete then s else togglePlay s now
  | .startPreset m now =>
      if s.isPlaying = false ∧ s.sessionComplete = false ∧
          s.exerciseType ≠ ExerciseType.fourSevenEight
      then startWithPreset s m now else s
  | .startRounds r now =>
      if s.isPlaying = false ∧ s.sessionComplete = false ∧
          s.exerciseType = ExerciseType.fourSevenEight
      then startWithRounds s r now else s
  | .reset => if s.sessionComplete then resetToStart s else s
  | .setTimeLimit v =>
      if s.isPlaying = false ∧ s.sessionComplete = false
      then { s with timeLimit := stripNonDigits v } else s
  | .setExercise t =>
      if s.isPlaying = false ∧ s.sessionComplete = false
      then setExerciseType s t else s
  | .toggleSound => { s with soundEnabled := !s.soundEnabled }
  | .toggleCountdown => { s with countdownEnabled := !s.countdownEnabled }
  | .setSlider v =>
      if s.isPlaying = false ∧ s.sessionComplete = false ∧
          s.exerciseType.hasSlider = true
      then
        if s.exerciseType = ExerciseType.longExhale
        then { s with exhaleDuration := v }
        else { s with phaseTime := v }
      else s

/-- Run a list of events from a state. -/
def runEvents (s : AppState) (es : List Event) : AppState :=
  es.foldl step s

/-- States reachable from the initial state by event steps. -/
inductive Reachable : AppState → Prop
  | init : Reachable initState
  | step {s : AppState} (h : Reachable s) (e : Event) : Reachable (step s e)

/-- The countdown policy exactly as the specification words it: if the phase
duration has a fractional (non-integer) component and the remaining time
exceeds the floor of the duration, show the exact fractional duration,
otherwise the ceiling of the remaining time.  Stated independently of the
source's `duration % 1 !== 0` test so the two can be compared. -/
def countdownSpec (duration phaseElapsed : ℚ) : ℚ :=
  let remaining := duration - phaseElapsed
  if (⌊duration⌋ : ℚ) ≠ duration ∧ (⌊duration⌋ : ℚ) < remaining then duration
  else (⌈remaining⌉ : ℚ)

/-- A box-breathing session that is playing with `startTime = 2000` ms; a tick
at `now = 0` (before the start time) exercises the lookup loop's fall-through
path. -/
def mkPlayingBox : AppState :=
  { initState with isPlaying := true, hasStarted := true, startTime := some 2000 }

/-- A playing box session with a one-minute limit already reached, sitting in
the last phase of the cycle that began at 48 s. -/
def timedBoxNearEnd : AppState :=
  { initState with
    isPlaying := true
    hasStarted := true
    startTime := some 0
    timeLimit := "1"
    timeLimitReached := true
    count := 3
    totalTime := 63 }

/-- A playing 4-7-8 session with a one-round target, in the last phase of its
first cycle. -/
def roundsLastPhase : AppState :=
  { initState with
    exerciseType := ExerciseType.fourSevenEight
    isPlaying := true
    hasStarted := true
    startTime := some 0
    targetRounds := 1
    count := 2
    totalTime := 18 }

/-- An idle coherent-breathing configuration with the 4.5-second slider
value. -/
def coherentHalf : AppState :=
  { initState with exerciseType := ExerciseType.coherent, phaseTime := 9 / 2 }

/-- The state after selecting 4-7-8, typing a time limit of 1, and pressing
play: `togglePlay` turns the limit into a round target but keeps the
`timeLimit` string. -/
def c3TraceState : AppState :=
  runEvents initState
    [Event.setExercise ExerciseType.fourSevenEight,
     Event.setTimeLimit "1", Event.togglePlay 0]

theorem accStart_cons_zero (p : Phase) (rest : List Phase) :
    accStart (p :: rest) 0 = 0 := rfl

theorem accStart_cons_succ (p : Phase) (rest : List Phase) (i : Nat) :
    accStart (p :: rest) (i + 1) = p.duration + accStart rest i := rfl

theorem durAt_cons_zero (p : Phase) (rest : List Phase) :
    durAt (p :: rest) 0 = p.duration := by
  simp [durAt, phaseAt]

theorem durAt_cons_succ (p : Phase) (rest : List Phase) (i : Nat) :
    durAt (p :: rest) (i + 1) = durAt rest i := by
  simp [durAt, phaseAt]

theorem findPhaseAux_first_match (l : List Phase) :
    ∀ (c : ℚ) (i0 : Nat) (acc : ℚ) (j : Nat),
      j < l.length →
      acc + accStart l j ≤ c →
      c < acc + accStart l j + durAt l j →
      (∀ k, k < j →
        ¬(acc + accStart l k ≤ c ∧ c < acc + accStart l k + durAt l k)) →
      findPhaseAux l c i0 acc = (i0 + j, acc + accStart l j) := by
  induction l with
  | nil =>
    intro c i0 acc j hj _ _ _
    simp at hj
  | cons p rest ih =>
    intro c i0 acc j hj h1 h2 hmin
    cases j with
    | zero =>
      rw [accStart_cons_zero, add_zero] at h1 h2 ⊢
      rw [durAt_cons_zero] at h2
      rw [findPhaseAux, if_pos ⟨h1, h2⟩]
      simp
    | succ j' =>
      have hhead : ¬(acc ≤ c ∧ c < acc + p.duration) := by
        intro hc
        exact hmin 0 (Nat.succ_pos _)
          (by rwa [accStart_cons_zero, add_zero, durAt_cons_zero])
      rw [findPhaseAux, if_neg hhead]
      rw [accStart_cons_succ] at h1 h2 ⊢
      rw [durAt_cons_succ] at h2
      have hres := ih c (i0 + 1) (acc + p.duration) j'
        (by simpa using hj)
        (by linarith)
        (by linarith)
        (by
          intro k hk hc
          refine hmin (k + 1) (by omega) ?_
          rw [accStart_cons_succ, durAt_cons_succ]
          constructor <;> [linarith [hc.1]; linarith [hc.2]])
      rw [hres]
      refine Prod.ext ?_ ?_
      · simp only []
        omega
      · simp only []
        ring

theorem findPhaseAux_no_match (l : List Phase) :
    ∀ (c : ℚ) (i0 : Nat) (acc : ℚ),
      (∀ k, k < l.length →
        ¬(acc + accStart l k ≤ c ∧ c < acc + accStart l k + durAt l k)) →
      findPhaseAux l c i0 acc = (0, 0) := by
  induction l with
  | nil =>
    intro c i0 acc _
    rfl
  | cons p rest ih =>
    intro c i0 acc hmin
    have hhead : ¬(acc ≤ c ∧ c < acc + p.duration) := by
      intro hc
      exact hmin 0 (Nat.succ_pos _)
        (by rwa [accStart_cons_zero, add_zero, durAt_cons_zero])
    rw [findPhaseAux, if_neg hhead]
    refine ih c (i0 + 1) (acc + p.duration) ?_
    intro k hk hc
    refine hmin (k + 1) (by simpa using hk) ?_
    rw [accStart_cons_succ, durAt_cons_succ]
    constructor <;> [linarith [hc.1]; linarith [hc.2]]

theorem findPhaseAux_fst_lt (l : List Phase) :
    ∀ (c : ℚ) (i0 : Nat) (acc : ℚ),
      (findPhaseAux l c i0 acc).1 < i0 + l.length ∨
        findPhaseAux l c i0 acc = (0, 0) := by
  induction l with
  | nil =>
    intro c i0 acc
    exact Or.inr rfl
  | cons p rest ih =>
    intro c i0 acc
    rw [findPhaseAux]
    split_ifs with h
    · exact Or.inl (by simp)
    · rcases ih c (i0 + 1) (acc + p.duration) with h' | h'
      · exact Or.inl (by simp only [List.length_cons]; omega)
      · exact Or.inr h'

theorem findPhase_fst_lt (l : List Phase) (c : ℚ) (h : l ≠ []) :
    (findPhase l c).1 < l.length := by
  have hlen : 0 < l.length := List.length_pos.mpr h
  rcases findPhaseAux_fst_lt l c 0 0 with h' | h'
  · simpa using h'
  · rw [findPhase, h']
    exact hlen

theorem phases_length_pos (s : AppState) : 2 ≤ (getCurrentPhases s).length := by
  cases h : s.exerciseType <;>
    simp [getCurrentPhases, ExerciseType.getPhases, h]

theorem getCurrentPhases_ne_nil (s : AppState) : getCurrentPhases s ≠ [] := by
  have := phases_length_pos s
  intro h
  rw [h] at this
  simp at this

theorem applyTimeLimitCheck_reached_iff (s : AppState) :
    (applyTimeLimitCheck s).timeLimitReached = true ↔
      (s.timeLimitReached = true ∨
        (s.timeLimit ≠ "" ∧ timeLimitSecondsOf s ≤ s.totalTime)) := by
  unfold applyTimeLimitCheck
  split_ifs with h
  · simp only [true_iff]
    exact Or.inr ⟨h.1, h.2.2⟩
  · constructor
    · intro h'
      exact Or.inl h'
    · rintro (h' | h')
      · exact h'
      · by_cases hr : s.timeLimitReached = true
        · exact hr
        · exact absurd ⟨h'.1, by simpa using hr, h'.2⟩ h

theorem applyTimeLimitCheck_count (s : AppState) :
    (applyTimeLimitCheck s).count = s.count := by
  unfold applyTimeLimitCheck
  split_ifs <;> rfl

theorem applyTimeLimitCheck_sessionComplete (s : AppState) :
    (applyTimeLimitCheck s).sessionComplete = s.sessionComplete := by
  unfold applyTimeLimitCheck
  split_ifs <;> rfl

theorem applyTimeLimitCheck_isPlaying (s : AppState) :
    (applyTimeLimitCheck s).isPlaying = s.isPlaying := by
  unfold applyTimeLimitCheck
  split_ifs <;> rfl

theorem applyTimeLimitCheck_completedRounds (s : AppState) :
    (applyTimeLimitCheck s).completedRounds = s.completedRounds := by
  unfold applyTimeLimitCheck
  split_ifs <;> rfl

theorem applyTimeLimitCheck_targetRounds (s : AppState) :
    (applyTimeLimitCheck s).targetRounds = s.targetRounds := by
  unfold applyTimeLimitCheck
  split_ifs <;> rfl

theorem applyTimeLimitCheck_exerciseType (s : AppState) :
    (applyTimeLimitCheck s).exerciseType = s.exerciseType := by
  unfold applyTimeLimitCheck
  split_ifs <;> rfl

theorem applyTimeLimitCheck_hasStarted (s : AppState) :
    (applyTimeLimitCheck s).hasStarted = s.hasStarted := by
  unfold applyTimeLimitCheck
  split_ifs <;> rfl

theorem applyTimeLimitCheck_mono (s : AppState)
    (h : s.timeLimitReached = true) :
    (applyTimeLimitCheck s).timeLimitReached = true := by
  unfold applyTimeLimitCheck
  split_ifs <;> simp_all

theorem applyTimeLimitCheck_new_only_if (s : AppState)
    (h : (applyTimeLimitCheck s).timeLimitReached = true) :
    s.timeLimitReached = true ∨ s.timeLimit ≠ "" := by
  rcases (applyTimeLimitCheck_reached_iff s).mp h with h' | h'
  · exact Or.inl h'
  · exact Or.inr h'.1

theorem applyTransition_count (s : AppState) (p n L : Nat) :
    (applyTransition s p n L).count = s.count := by
  unfold applyTransition completeSession
  dsimp only
  split_ifs <;> rfl

theorem applyTransition_timeLimitReached (s : AppState) (p n L : Nat) :
    (applyTransition s p n L).timeLimitReached = s.timeLimitReached := by
  unfold applyTransition completeSession
  dsimp only
  split_ifs <;> rfl

theorem applyTransition_totalTime (s : AppState) (p n L : Nat) :
    (applyTransition s p n L).totalTime = s.totalTime := by
  unfold applyTransition completeSession
  dsimp only
  split_ifs <;> rfl

theorem applyTransition_completedRounds (s : AppState) (p n L : Nat) :
    (applyTransition s p n L).completedRounds =
      if p = L - 1 ∧ n = 0 then s.completedRounds + 1 else s.completedRounds := by
  unfold applyTransition completeSession
  dsimp only
  split_ifs <;> simp_all

theorem applyTransition_sessionComplete_iff (s : AppState) (p n L : Nat) :
    (applyTransition s p n L).sessionComplete = true ↔
      (s.sessionComplete = true ∨
        (p = L - 1 ∧ n = 0 ∧
          ((s.exerciseType = ExerciseType.fourSevenEight ∧ 0 < s.targetRounds ∧
              s.targetRounds ≤ s.completedRounds + 1) ∨
            s.timeLimitReached = true))) := by
  unfold applyTransition completeSession
  dsimp only
  split_ifs <;> simp_all

theorem applyTransition_complete_stops (s : AppState) (p n L : Nat)
    (h0 : s.sessionComplete = false)
    (h : (applyTransition s p n L).sessionComplete = true) :
    (applyTransition s p n L).isPlaying = false ∧
      (applyTransition s p n L).hasStarted = false := by
  unfold applyTransition completeSession at *
  dsimp only at *
  split_ifs at * <;> simp_all

theorem animate_count (s : AppState) (now : ℚ) (h : s.isPlaying = true) :
    (animate s now).count = (computeClock s now).newCount := by
  unfold animate animateBody
  rw [if_pos h]
  dsimp only
  split_ifs with hc
  · rw [applyTransition_count]
  · rfl


theorem animate_timeLimitReached_iff (s : AppState) (now : ℚ)
    (h : s.isPlaying = true) :
    ((animate s now).timeLimitReached = true ↔
      (s.timeLimitReached = true ∨
        (s.timeLimit ≠ "" ∧
          timeLimitSecondsOf s ≤ (computeClock s now).newTotalTime))) := by
  unfold animate animateBody
  rw [if_pos h]
  dsimp only
  split_ifs with hc <;>
    simp only [applyTransition_timeLimitReached,
      applyTimeLimitCheck_reached_iff] <;>
    simp [timeLimitSecondsOf]

theorem animate_sessionComplete_iff (s : AppState) (now : ℚ)
    (h : s.isPlaying = true) (h0 : s.sessionComplete = false) :
    ((animate s now).sessionComplete = true ↔
      ((computeClock s now).newCount ≠ s.count ∧
        s.count = (getCurrentPhases s).length - 1 ∧
        (computeClock s now).newCount = 0 ∧
        ((s.exerciseType = ExerciseType.fourSevenEight ∧ 0 < s.targetRounds ∧
            s.targetRounds ≤ s.completedRounds + 1) ∨
          s.timeLimitReached = true ∨
          (s.timeLimit ≠ "" ∧
            timeLimitSecondsOf s ≤ (computeClock s now).newTotalTime)))) := by
  unfold animate animateBody
  rw [if_pos h]
  dsimp only
  split_ifs with hc
  · simp only [applyTransition_sessionComplete_iff,
      applyTimeLimitCheck_sessionComplete, applyTimeLimitCheck_targetRounds,
      applyTimeLimitCheck_completedRounds, applyTimeLimitCheck_exerciseType,
      applyTimeLimitCheck_reached_iff]
    simp only [timeLimitSecondsOf]
    simp [h0, hc]
  · simp only [applyTimeLimitCheck_sessionComplete, h0]
    constructor
    · intro hfalse
      cases hfalse
    · rintro ⟨hne, _⟩
      exact absurd hne hc

theorem animate_completedRounds (s : AppState) (now : ℚ)
    (h : s.isPlaying = true) :
    (animate s now).completedRounds =
      if (computeClock s now).newCount ≠ s.count ∧
          s.count = (getCurrentPhases s).length - 1 ∧
          (computeClock s now).newCount = 0
      then s.completedRounds + 1 else s.completedRounds := by
  unfold animate animateBody
  rw [if_pos h]
  dsimp only
  split_ifs with hc h2 h3
  · rw [applyTransition_completedRounds, if_pos ⟨h2.2.1, h2.2.2⟩]
    simp [applyTimeLimitCheck_completedRounds]
  · rw [applyTransition_completedRounds,
      if_neg (fun hcontra => h2 ⟨hc, hcontra.1, hcontra.2⟩)]
    simp [applyTimeLimitCheck_completedRounds]
  · exact absurd h3.1 hc
  · simp [applyTimeLimitCheck_completedRounds]

theorem animate_complete_stops (s : AppState) (now : ℚ)
    (h : s.isPlaying = true) (h0 : s.sessionComplete = false)
    (hdone : (animate s now).sessionComplete = true) :
    (animate s now).isPlaying = false ∧ (animate s now).hasStarted = false := by
  unfold animate animateBody at hdone ⊢
  rw [if_pos h] at hdone ⊢
  dsimp only at hdone ⊢
  split_ifs at hdone ⊢ with hc
  · have := applyTransition_complete_stops _ s.count
      (computeClock s now).newCount (getCurrentPhases s).length
      (by simp [applyTimeLimitCheck_sessionComplete, h0]) hdone
    simpa using this
  · rw [applyTimeLimitCheck_sessionComplete] at hdone
    simp only [h0] at hdone
    cases hdone

theorem jsMod_one_eq_zero_iff (d : ℚ) : jsMod d 1 = 0 ↔ (⌊d⌋ : ℚ) = d := by
  unfold jsMod jsTrunc
  rw [div_one, one_mul, sub_eq_zero]
  split_ifs with h
  · exact eq_comm
  · constructor
    · intro h'
      obtain ⟨n, hn⟩ : ∃ n : ℤ, d = (n : ℚ) := ⟨⌈d⌉, h'⟩
      subst hn
      simp
    · intro h'
      obtain ⟨n, hn⟩ : ∃ n : ℤ, d = (n : ℚ) := ⟨⌊d⌋, h'.symm⟩
      subst hn
      simp

theorem animate_not_playing (s : AppState) (now : ℚ)
    (h : s.isPlaying = false) : animate s now = s := by
  simp [animate, h]

theorem applyTransition_isPlaying_of_not_wrap (s : AppState) (p n L : Nat)
    (hw : ¬(p = L - 1 ∧ n = 0)) :
    (applyTransition s p n L).isPlaying = s.isPlaying := by
  unfold applyTransition completeSession
  dsimp only
  rw [if_neg hw, if_neg (fun hcontra => hw ⟨hcontra.1, hcontra.2.1⟩)]

theorem animate_isPlaying_no_wrap (s : AppState) (now : ℚ)
    (h : s.isPlaying = true)
    (hw : ¬(s.count = (getCurrentPhases s).length - 1 ∧
        (computeClock s now).newCount = 0)) :
    (animate s now).isPlaying = true := by
  unfold animate animateBody
  rw [if_pos h]
  dsimp only
  split_ifs with hc
  · rw [applyTransition_isPlaying_of_not_wrap _ _ _ _
      (fun hcontra => hw ⟨hcontra.1, hcontra.2⟩)]
    simp [applyTimeLimitCheck_isPlaying, h]
  · simp [applyTimeLimitCheck_isPlaying, h]

/-- C6: for every phase duration `d` and phase-local elapsed `e`, the per-tick
countdown equals the spec's policy — the exact fractional value `d` when `d`
is non-integer and `d - e > ⌊d⌋`, otherwise `⌈d - e⌉`; in particular a
4.5-second phase reports 4.5 at `e = 0` and 4 at `e = 0.6`. -/
theorem c6_countdown_policy :
    (∀ d e : ℚ, countdownValue d e = countdownSpec d e) ∧
      countdownValue (9 / 2) 0 = 9 / 2 ∧
      countdownValue (9 / 2) (3 / 5) = 4 := by
  refine ⟨?_, ?_, ?_⟩
  · intro d e
    unfold countdownValue countdownSpec
    dsimp only
    exact if_congr (and_congr_left' (not_congr (jsMod_one_eq_zero_iff d)))
      rfl rfl
  · have h1 : jsMod (9 / 2 : ℚ) 1 = 1 / 2 := by
      norm_num [jsMod, jsTrunc]
    unfold countdownValue
    dsimp only
    rw [if_pos ⟨by rw [h1]; norm_num, by norm_num⟩]
  · have h2 : ¬((⌊(9 / 2 : ℚ)⌋ : ℚ) < 9 / 2 - 3 / 5) := by norm_num
    unfold countdownValue
    dsimp only
    rw [if_neg (fun hcontra => h2 hcontra.2)]
    have h3 : ⌈(9 / 2 : ℚ) - 3 / 5⌉ = 4 := by
      rw [Int.ceil_eq_iff]
      norm_num
    rw [h3]
    norm_num

/-- C7: `resetToStart` zeroes the runtime state — completed rounds, the
time-limit-reached flag, the round target, the time-limit string, the total
elapsed time — and returns to idle, while leaving the configuration fields
(exercise type, duration parameters, sound and countdown toggles)
unchanged. -/
theorem c7_reset_clears_runtime_keeps_config (s : AppState) :
    (resetToStart s).completedRounds = 0 ∧
      (resetToStart s).timeLimitReached = false ∧
      (resetToStart s).targetRounds = 0 ∧
      (resetToStart s).timeLimit = "" ∧
      (resetToStart s).totalTime = 0 ∧
      (resetToStart s).isPlaying = false ∧
      (resetToStart s).sessionComplete = false ∧
      (resetToStart s).hasStarted = false ∧
      (resetToStart s).startTime = none ∧
      (resetToStart s).exerciseType = s.exerciseType ∧
      (resetToStart s).phaseTime = s.phaseTime ∧
      (resetToStart s).exhaleDuration = s.exhaleDuration ∧
      (resetToStart s).soundEnabled = s.soundEnabled ∧
      (resetToStart s).countdownEnabled = s.countdownEnabled := by
  exact ⟨rfl, rfl, rfl, rfl, rfl, rfl, rfl, rfl, rfl, rfl, rfl, rfl, rfl, rfl⟩

/-- C8: on every tick of a playing session with a non-empty pattern of
strictly positive total cycle duration and `now` at or after the start time,
the computed phase index is a valid index into the pattern's phase list. -/
theorem c8_phase_index_in_range (s : AppState) (now : ℚ)
    (hplay : s.isPlaying = true)
    (hcycle : 0 < getTotalCycleTime s)
    (hstart : s.startTime.getD 0 ≤ now) :
    (animate s now).count < (getCurrentPhases s).length := by
  rw [animate_count s now hplay]
  exact findPhase_fst_lt _ _ (getCurrentPhases_ne_nil s)

/-- Witness for C8 at a concrete playing box session and tick time. -/
theorem c8_witness :
    mkPlayingBox.isPlaying = true ∧
      0 < getTotalCycleTime mkPlayingBox ∧
      mkPlayingBox.startTime.getD 0 ≤ 3000 ∧
      (animate mkPlayingBox 3000).count < (getCurrentPhases mkPlayingBox).length := by
  have h2 : 0 < getTotalCycleTime mkPlayingBox := by
    norm_num [getTotalCycleTime, getCurrentPhases, ExerciseType.getPhases,
      mkPlayingBox, initState]
  have h3 : mkPlayingBox.startTime.getD 0 ≤ (3000 : ℚ) := by
    norm_num [mkPlayingBox, initState]
  exact ⟨rfl, h2, h3, c8_phase_index_in_range mkPlayingBox 3000 rfl h2 h3⟩

/-- C10: every start operation initializes the displayed countdown to the
ceiling of the first phase's duration; in particular starting coherent
breathing at 4.5 s shows 5, not the fractional 4.5 the per-tick policy would
produce. -/
theorem c10_start_countdown_is_ceil (s : AppState) (m r : Nat) (now : ℚ) :
    ((s.isPlaying = false →
        (togglePlay s now).countdown = (⌈durAt (getCurrentPhases s) 0⌉ : ℚ)) ∧
      (startWithPreset s m now).countdown =
        (⌈durAt (getCurrentPhases s) 0⌉ : ℚ) ∧
      (startWithRounds s r now).countdown =
        (⌈durAt (getCurrentPhases s) 0⌉ : ℚ) ∧
      (s.isPlaying = false → s.exerciseType = ExerciseType.coherent →
        s.phaseTime = 9 / 2 → (togglePlay s now).countdown = 5)) := by
  refine ⟨?_, rfl, rfl, ?_⟩
  · intro hp
    simp [togglePlay, hp, getCurrentPhases]
  · intro hp he hpt
    simp only [togglePlay, hp, Bool.not_false, if_pos]
    have hd : durAt (getCurrentPhases { s with isPlaying := true }) 0 = 9 / 2 := by
      simp [getCurrentPhases, he, hpt, ExerciseType.getPhases, durAt, phaseAt]
    have hceil : ⌈(9 / 2 : ℚ)⌉ = 5 := by
      rw [Int.ceil_eq_iff]
      norm_num
    simp [hd, hceil]

/-- Witness for C10 at the idle coherent configuration with phase time 4.5. -/
theorem c10_witness :
    coherentHalf.isPlaying = false ∧
      coherentHalf.exerciseType = ExerciseType.coherent ∧
      coherentHalf.phaseTime = 9 / 2 ∧
      (togglePlay coherentHalf 0).countdown = 5 :=
  ⟨rfl, rfl, rfl,
    (c10_start_countdown_is_ceil coherentHalf 0 0 0).2.2.2 rfl rfl rfl⟩

/-- C9: pausing a playing session (`togglePlay`) resets the runtime fields to
their initial values but, unlike `resetToStart`, leaves the `timeLimit`
string unchanged, so a later start reuses it — for 4-7-8 by reinterpreting it
as the round target. -/
theorem c9_pause_keeps_time_limit (s : AppState) (now now2 : ℚ)
    (hp : s.isPlaying = true) :
    ((togglePlay s now).isPlaying = false ∧
      (togglePlay s now).totalTime = 0 ∧
      (togglePlay s now).count = 0 ∧
      (togglePlay s now).countdown = (⌈durAt (getCurrentPhases s) 0⌉ : ℚ) ∧
      (togglePlay s now).completedRounds = 0 ∧
      (togglePlay s now).targetRounds = 0 ∧
      (togglePlay s now).timeLimitReached = false ∧
      (togglePlay s now).sessionComplete = false ∧
      (togglePlay s now).hasStarted = false ∧
      (togglePlay s now).startTime = none ∧
      (togglePlay s now).timeLimit = s.timeLimit ∧
      (resetToStart s).timeLimit = "" ∧
      (s.exerciseType = ExerciseType.fourSevenEight →
        (togglePlay (togglePlay s now) now2).targetRounds =
          parseIntOrZero s.timeLimit)) := by
  have hpause : togglePlay s now =
      { s with
        isPlaying := false
        totalTime := 0
        countdown := (⌈durAt (getCurrentPhases s) 0⌉ : ℚ)
        count := 0
        sessionComplete := false
        timeLimitReached := false
        hasStarted := false
        targetRounds := 0
        completedRounds := 0
        startTime := none } := by
    simp [togglePlay, hp, getCurrentPhases]
  rw [hpause]
  refine ⟨rfl, rfl, rfl, rfl, rfl, rfl, rfl, rfl, rfl, rfl, rfl, rfl, ?_⟩
  intro he
  by_cases hlim : s.timeLimit = ""
  · simp [togglePlay, he, hlim, getCurrentPhases, parseIntOrZero]
  · simp [togglePlay, he, hlim, getCurrentPhases]

/-- Witness for C9 at a concrete playing session with a stored time limit. -/
theorem c9_witness :
    timedBoxNearEnd.isPlaying = true ∧
      (togglePlay timedBoxNearEnd 0).timeLimit = timedBoxNearEnd.timeLimit ∧
      (togglePlay timedBoxNearEnd 0).targetRounds = 0 := by
  have h := c9_pause_keeps_time_limit timedBoxNearEnd 0 0 rfl
  exact ⟨rfl, h.2.2.2.2.2.2.2.2.2.2.1, h.2.2.2.2.2.1⟩

/-- C1 counterexample: at a tick taken before the session's start time the
cycle position is negative, no phase window matches it, and the lookup keeps
the loop's initial index 0 — the first phase, not the last phase the claim
says is selected. -/
theorem c1_fallback_counterexample :
    (∀ k, k < (getCurrentPhases mkPlayingBox).length →
        ¬ matchesAt (getCurrentPhases mkPlayingBox)
          (computeClock mkPlayingBox 0).cycleElapsed k) ∧
      (animate mkPlayingBox 0).count = 0 ∧
      (animate mkPlayingBox 0).count ≠ (getCurrentPhases mkPlayingBox).length - 1 := by
  have hph : getCurrentPhases mkPlayingBox = ExerciseType.box.getPhases 4 6 := rfl
  have hminus : ((0 : ℚ) - mkPlayingBox.startTime.getD 0) / 1000 = -2 := by
    norm_num [mkPlayingBox, initState]
  have hcyc : getTotalCycleTime mkPlayingBox = 16 := by
    norm_num [getTotalCycleTime, getCurrentPhases, ExerciseType.getPhases,
      mkPlayingBox, initState]
  have htr : jsTrunc ((-2 : ℚ) / 16) = 0 := by
    rw [jsTrunc, if_neg (by norm_num)]
    rw [Int.ceil_eq_iff]
    norm_num
  have hmod : jsMod (-2 : ℚ) 16 = -2 := by
    rw [jsMod, htr]
    norm_num
  have hce : (computeClock mkPlayingBox 0).cycleElapsed = -2 := by
    show jsMod ((0 - mkPlayingBox.startTime.getD 0) / 1000)
      (getTotalCycleTime mkPlayingBox) = -2
    rw [hminus, hcyc, hmod]
  have hnc : (computeClock mkPlayingBox 0).newCount = 0 := by
    show (findPhase (getCurrentPhases mkPlayingBox)
      (jsMod ((0 - mkPlayingBox.startTime.getD 0) / 1000)
        (getTotalCycleTime mkPlayingBox))).1 = 0
    rw [hminus, hcyc, hmod, hph]
    norm_num [findPhase, findPhaseAux, ExerciseType.getPhases]
  refine ⟨?_, ?_, ?_⟩
  · intro k hk
    rw [hph] at hk
    rw [hph, hce]
    simp only [ExerciseType.getPhases, List.length_cons, List.length_nil] at hk
    interval_cases k <;>
      norm_num [matchesAt, accStart, durAt, phaseAt, ExerciseType.getPhases]
  · rw [animate_count mkPlayingBox 0 rfl, hnc]
  · rw [animate_count mkPlayingBox 0 rfl, hnc, hph]
    norm_num [ExerciseType.getPhases]

/-- C1 (amended): the active phase is the first phase whose window of
accumulated start times contains the cycle position, with the accumulated
start returned alongside; when no phase matches, the lookup returns index 0
with accumulated start 0 (the first phase, not the last). -/
theorem c1_phase_lookup_first_match (phases : List Phase) (c : ℚ) (j : Nat) :
    ((j < phases.length → matchesAt phases c j →
        (∀ k, k < j → ¬ matchesAt phases c k) →
        findPhase phases c = (j, accStart phases j)) ∧
      ((∀ k, k < phases.length → ¬ matchesAt phases c k) →
        findPhase phases c = (0, 0))) := by
  constructor
  · intro hj hm hmin
    have h := findPhaseAux_first_match phases c 0 0 j hj
      (by simpa using hm.1) (by simpa using hm.2)
      (fun k hk hc => hmin k hk ⟨by simpa using hc.1, by simpa using hc.2⟩)
    rw [findPhase, h]
    simp
  · intro hall
    have h := findPhaseAux_no_match phases c 0 0
      (fun k hk hc => hall k hk ⟨by simpa using hc.1, by simpa using hc.2⟩)
    exact h

/-- Witness for C1: on the 4-7-8 pattern, cycle position 5 selects the first
matching phase (index 1, accumulated start 4), and the unmatched position -2
yields the fall-through result `(0, 0)`. -/
theorem c1_witness :
    findPhase (ExerciseType.fourSevenEight.getPhases 4 6) 5 =
        (1, accStart (ExerciseType.fourSevenEight.getPhases 4 6) 1) ∧
      findPhase (ExerciseType.fourSevenEight.getPhases 4 6) (-2) = (0, 0) := by
  constructor
  · exact (c1_phase_lookup_first_match _ 5 1).1
      (by norm_num [ExerciseType.getPhases])
      (by norm_num [matchesAt, accStart, durAt, phaseAt, ExerciseType.getPhases])
      (by
        intro k hk
        interval_cases k
        norm_num [matchesAt, accStart, durAt, phaseAt, ExerciseType.getPhases])
  · exact (c1_phase_lookup_first_match _ (-2) 0).2
      (by
        intro k hk
        simp only [ExerciseType.getPhases, List.length_cons,
          List.length_nil] at hk
        interval_cases k <;>
          norm_num [matchesAt, accStart, durAt, phaseAt, ExerciseType.getPhases])

/-- C2 counterexample: selecting 4-7-8, typing a time limit of 4, and pressing
play leaves `targetRounds = 4` while the `timeLimit` string stays "4" — both
targets are set at once, refuting the exclusivity claim for `togglePlay`. -/
theorem c2_exclusivity_counterexample :
    (runEvents initState
        [Event.setExercise ExerciseType.fourSevenEight,
         Event.setTimeLimit "4", Event.togglePlay 0]).isPlaying = true ∧
      (runEvents initState
        [Event.setExercise ExerciseType.fourSevenEight,
         Event.setTimeLimit "4", Event.togglePlay 0]).targetRounds = 4 ∧
      (runEvents initState
        [Event.setExercise ExerciseType.fourSevenEight,
         Event.setTimeLimit "4", Event.togglePlay 0]).timeLimit ≠ "" := by
  refine ⟨?_, ?_, ?_⟩ <;> decide

/-- C2 (amended): `startWithPreset` leaves no round target and
`startWithRounds` clears the time limit, but `togglePlay` into playing sets a
positive round target only for 4-7-8 with a non-empty time-limit string,
which it retains — for that start path the two targets coexist. -/
theorem c2_target_exclusivity (s : AppState) (m r : Nat) (now : ℚ) :
    ((startWithPreset s m now).targetRounds = 0 ∧
      ((startWithRounds s r now).timeLimit = "" ∧
        (startWithRounds s r now).targetRounds = r) ∧
      (s.isPlaying = false → s.exerciseType ≠ ExerciseType.fourSevenEight →
        (togglePlay s now).targetRounds = 0) ∧
      (s.isPlaying = false → 0 < (togglePlay s now).targetRounds →
        (s.exerciseType = ExerciseType.fourSevenEight ∧
          (togglePlay s now).timeLimit = s.timeLimit ∧ s.timeLimit ≠ ""))) := by
  refine ⟨rfl, ⟨rfl, rfl⟩, ?_, ?_⟩
  · intro hp he
    simp [togglePlay, hp, he]
  · intro hp htr
    by_cases he : s.exerciseType = ExerciseType.fourSevenEight
    · by_cases hlim : s.timeLimit = ""
      · simp [togglePlay, hp, hlim] at htr
      · exact ⟨he, by simp [togglePlay, hp], hlim⟩
    · simp [togglePlay, hp, he] at htr

/-- Witness for C2: the preset and rounds starts from the initial state, and
`togglePlay` from the initial (box) state, all keep one target clear. -/
theorem c2_witness :
    (startWithPreset initState 2 0).targetRounds = 0 ∧
      (startWithRounds initState 4 0).timeLimit = "" ∧
      (togglePlay initState 0).targetRounds = 0 := by
  have h := c2_target_exclusivity initState 2 4 0
  exact ⟨h.1, h.2.1.1, h.2.2.1 rfl (by decide)⟩

/-- C3 counterexample: in the reachable state where a 4-7-8 session was
started via `togglePlay` with time limit "1", the round target 1 is active,
yet a late tick at 61 s still sets `timeLimitReached` while the session keeps
playing — the flag rises while round-based targeting is in effect. -/
theorem c3_reached_with_rounds_counterexample :
    Reachable c3TraceState ∧
      c3TraceState.timeLimitReached = false ∧
      0 < c3TraceState.targetRounds ∧
      (step c3TraceState (Event.tick 61000)).timeLimitReached = true ∧
      (step c3TraceState (Event.tick 61000)).isPlaying = true := by
  refine ⟨?_, by decide, by decide, ?_, ?_⟩
  · have heq : c3TraceState =
        step (step (step initState
            (Event.setExercise ExerciseType.fourSevenEight))
          (Event.setTimeLimit "1")) (Event.togglePlay 0) := rfl
    rw [heq]
    exact Reachable.step (Reachable.step (Reachable.step Reachable.init _) _) _
  · show (animate c3TraceState 61000).timeLimitReached = true
    rw [animate_timeLimitReached_iff _ _ (by decide)]
    refine Or.inr ⟨by decide, ?_⟩
    have h60 : timeLimitSecondsOf c3TraceState = 60 := by decide
    have h61 : (computeClock c3TraceState 61000).newTotalTime = 61 := by
      show ⌊((61000 : ℚ) - c3TraceState.startTime.getD 0) / 1000⌋ = 61
      have hst : c3TraceState.startTime = some 0 := by decide
      rw [hst]
      norm_num
    rw [h60, h61]
    norm_num
  · show (animate c3TraceState 61000).isPlaying = true
    refine animate_isPlaying_no_wrap _ _ (by decide) ?_
    intro hcontra
    have hcount : c3TraceState.count = 0 := by decide
    have hlen : (getCurrentPhases c3TraceState).length = 3 := by decide
    rw [hcount, hlen] at hcontra
    exact absurd hcontra.1 (by decide)

/-- C3 (amended): a tick raises `timeLimitReached` only when the `timeLimit`
string is non-empty (which for a 4-7-8 session started by `togglePlay` can
coincide with an active round target), no tick ever clears it, and the only
events that clear it are `togglePlay`, reset, and the preset/rounds starts. -/
theorem c3_reached_monotone_until_reset (s : AppState) (now : ℚ) (e : Event) :
    (((animate s now).timeLimitReached = true →
        s.timeLimitReached = true ∨ s.timeLimit ≠ "") ∧
      (s.timeLimitReached = true → (animate s now).timeLimitReached = true) ∧
      (s.timeLimitReached = true → (step s e).timeLimitReached = false →
        ((∃ n, e = Event.togglePlay n) ∨ e = Event.reset ∨
          (∃ mm n, e = Event.startPreset mm n) ∨
          (∃ rr n, e = Event.startRounds rr n)))) := by
  have part1 : (animate s now).timeLimitReached = true →
      s.timeLimitReached = true ∨ s.timeLimit ≠ "" := by
    by_cases hp : s.isPlaying = true
    · rw [animate_timeLimitReached_iff s now hp]
      rintro (h | h)
      · exact Or.inl h
      · exact Or.inr h.1
    · rw [animate_not_playing s now (by simpa using hp)]
      exact fun h => Or.inl h
  have part2 : s.timeLimitReached = true →
      (animate s now).timeLimitReached = true := by
    intro h
    by_cases hp : s.isPlaying = true
    · exact (animate_timeLimitReached_iff s now hp).mpr (Or.inl h)
    · rw [animate_not_playing s now (by simpa using hp)]
      exact h
  refine ⟨part1, part2, ?_⟩
  intro h hdrop
  cases e with
  | tick n =>
    exfalso
    simp only [step] at hdrop
    by_cases hp : s.isPlaying = true
    · have htrue := (animate_timeLimitReached_iff s n hp).mpr (Or.inl h)
      rw [htrue] at hdrop
      cases hdrop
    · rw [animate_not_playing s n (by simpa using hp), h] at hdrop
      cases hdrop
  | togglePlay n => exact Or.inl ⟨n, rfl⟩
  | startPreset mm n => exact Or.inr (Or.inr (Or.inl ⟨mm, n, rfl⟩))
  | startRounds rr n => exact Or.inr (Or.inr (Or.inr ⟨rr, n, rfl⟩))
  | reset => exact Or.inr (Or.inl rfl)
  | setTimeLimit v =>
    exfalso
    revert hdrop
    simp only [step]
    split_ifs <;> simp [h]
  | setExercise t =>
    exfalso
    revert hdrop
    simp only [step]
    split_ifs <;> simp [h, setExerciseType]
  | toggleSound =>
    exfalso
    revert hdrop
    simp only [step]
    simp [h]
  | toggleCountdown =>
    exfalso
    revert hdrop
    simp only [step]
    simp [h]
  | setSlider v =>
    exfalso
    revert hdrop
    simp only [step]
    split_ifs <;> simp [h]

/-- Witness for C3: once `timeLimitReached` is set in a concrete playing box
session, the next tick keeps it set. -/
theorem c3_witness :
    timedBoxNearEnd.timeLimitReached = true ∧
      (animate timedBoxNearEnd 64000).timeLimitReached = true :=
  ⟨rfl, (c3_reached_monotone_until_reset timedBoxNearEnd 64000 Event.reset).2.1 rfl⟩

/-- C4: in time-limit mode (non-empty limit, no round target) a tick sets
`timeLimitReached` exactly when the floored elapsed seconds have reached the
limit (or it was already set), the session completes exactly at a wraparound
tick from the last phase to phase 0 with the flag set — never mid-cycle — and
completing stops playback. -/
theorem c4_time_limit_grace (s : AppState) (now : ℚ)
    (hp : s.isPlaying = true) (h0 : s.sessionComplete = false)
    (hlim : s.timeLimit ≠ "") (hr : s.targetRounds = 0) :
    (((animate s now).timeLimitReached = true ↔
        (s.timeLimitReached = true ∨
          timeLimitSecondsOf s ≤ (computeClock s now).newTotalTime)) ∧
      ((animate s now).sessionComplete = true ↔
        (s.count = (getCurrentPhases s).length - 1 ∧
          (computeClock s now).newCount = 0 ∧
          (animate s now).timeLimitReached = true)) ∧
      ((animate s now).sessionComplete = true →
        (animate s now).isPlaying = false)) := by
  have hL := phases_length_pos s
  have h2 := animate_sessionComplete_iff s now hp h0
  have hpart1 : (animate s now).timeLimitReached = true ↔
      (s.timeLimitReached = true ∨
        timeLimitSecondsOf s ≤ (computeClock s now).newTotalTime) := by
    rw [animate_timeLimitReached_iff s now hp]
    simp [hlim]
  refine ⟨hpart1, ?_,
    fun hdone => (animate_complete_stops s now hp h0 hdone).1⟩
  rw [h2]
  constructor
  · rintro ⟨hne, hw, hz, hrest⟩
    refine ⟨hw, hz, ?_⟩
    rw [hpart1]
    rcases hrest with hrounds | hrch | hlr
    · rw [hr] at hrounds
      exact absurd hrounds.2.1 (by omega)
    · exact Or.inl hrch
    · exact Or.inr hlr.2
  · rintro ⟨hw, hz, hrch⟩
    refine ⟨?_, hw, hz, ?_⟩
    · rw [hz, hw]
      omega
    · rw [hpart1] at hrch
      rcases hrch with hrch | hrch
      · exact Or.inr (Or.inl hrch)
      · exact Or.inr (Or.inr ⟨hlim, hrch⟩)

/-- Witness for C4: a box session with the one-minute limit already reached
completes at the 64-second tick, the wraparound that ends the cycle running
at the 60-second mark, and stops playing. -/
theorem c4_witness :
    timedBoxNearEnd.isPlaying = true ∧
      timedBoxNearEnd.sessionComplete = false ∧
      timedBoxNearEnd.timeLimit ≠ "" ∧
      timedBoxNearEnd.targetRounds = 0 ∧
      (animate timedBoxNearEnd 64000).sessionComplete = true ∧
      (animate timedBoxNearEnd 64000).isPlaying = false := by
  have h := c4_time_limit_grace timedBoxNearEnd 64000 rfl rfl (by decide) rfl
  have hph : getCurrentPhases timedBoxNearEnd = ExerciseType.box.getPhases 4 6 :=
    rfl
  have helapsed : ((64000 : ℚ) - timedBoxNearEnd.startTime.getD 0) / 1000 = 64 := by
    norm_num [timedBoxNearEnd, initState]
  have hcyc : getTotalCycleTime timedBoxNearEnd = 16 := by
    norm_num [getTotalCycleTime, getCurrentPhases, ExerciseType.getPhases,
      timedBoxNearEnd, initState]
  have hmod : jsMod (64 : ℚ) 16 = 0 := by
    norm_num [jsMod, jsTrunc]
  have hnc : (computeClock timedBoxNearEnd 64000).newCount = 0 := by
    show (findPhase (getCurrentPhases timedBoxNearEnd)
      (jsMod ((64000 - timedBoxNearEnd.startTime.getD 0) / 1000)
        (getTotalCycleTime timedBoxNearEnd))).1 = 0
    rw [helapsed, hcyc, hmod, hph]
    norm_num [findPhase, findPhaseAux, ExerciseType.getPhases]
  have hwrap : timedBoxNearEnd.count =
      (getCurrentPhases timedBoxNearEnd).length - 1 := by decide
  have hdone : (animate timedBoxNearEnd 64000).sessionComplete = true := by
    rw [h.2.1]
    exact ⟨hwrap, hnc, h.1.mpr (Or.inl rfl)⟩
  exact ⟨rfl, rfl, by decide, rfl, hdone, h.2.2 hdone⟩

/-- C5: in round-target mode a tick increments `completedRounds` exactly at a
wraparound from the last phase to phase 0, the session completes exactly at
the wraparound tick where the incremented count reaches the target — never
mid-phase and never earlier — and completing stops playback. -/
theorem c5_round_target_completion (s : AppState) (now : ℚ)
    (hp : s.isPlaying = true) (h0 : s.sessionComplete = false)
    (he : s.exerciseType = ExerciseType.fourSevenEight)
    (ht : 0 < s.targetRounds) (hlim : s.timeLimit = "")
    (hrch : s.timeLimitReached = false) :
    ((animate s now).completedRounds =
        (if s.count = (getCurrentPhases s).length - 1 ∧
            (computeClock s now).newCount = 0
          then s.completedRounds + 1 else s.completedRounds) ∧
      ((animate s now).sessionComplete = true ↔
        (s.count = (getCurrentPhases s).length - 1 ∧
          (computeClock s now).newCount = 0 ∧
          s.targetRounds ≤ s.completedRounds + 1)) ∧
      ((animate s now).sessionComplete = true →
        (animate s now).isPlaying = false ∧
          (animate s now).hasStarted = false)) := by
  have hL := phases_length_pos s
  refine ⟨?_, ?_, fun hdone => animate_complete_stops s now hp h0 hdone⟩
  · rw [animate_completedRounds s now hp]
    by_cases hw : s.count = (getCurrentPhases s).length - 1 ∧
        (computeClock s now).newCount = 0
    · rw [if_pos ⟨by rw [hw.2, hw.1]; omega, hw.1, hw.2⟩, if_pos hw]
    · rw [if_neg (fun hcontra => hw ⟨hcontra.2.1, hcontra.2.2⟩), if_neg hw]
  · rw [animate_sessionComplete_iff s now hp h0]
    constructor
    · rintro ⟨hne, hw, hz, hrest⟩
      refine ⟨hw, hz, ?_⟩
      rcases hrest with hrounds | hr2 | hl2
      · exact hrounds.2.2
      · rw [hrch] at hr2
        cases hr2
      · exact absurd hl2.1 (by simp [hlim])
    · rintro ⟨hw, hz, htarget⟩
      exact ⟨by rw [hz, hw]; omega, hw, hz, Or.inl ⟨he, ht, htarget⟩⟩

/-- Witness for C5: a one-round 4-7-8 session in its last phase completes at
the 19-second wraparound tick with `completedRounds = 1` and stops playing. -/
theorem c5_witness :
    roundsLastPhase.isPlaying = true ∧
      roundsLastPhase.sessionComplete = false ∧
      roundsLastPhase.exerciseType = ExerciseType.fourSevenEight ∧
      0 < roundsLastPhase.targetRounds ∧
      roundsLastPhase.timeLimit = "" ∧
      roundsLastPhase.timeLimitReached = false ∧
      (animate roundsLastPhase 19000).completedRounds = 1 ∧
      (animate roundsLastPhase 19000).sessionComplete = true ∧
      (animate roundsLastPhase 19000).isPlaying = false := by
  have h := c5_round_target_completion roundsLastPhase 19000 rfl rfl rfl
    (by decide) rfl rfl
  have hph : getCurrentPhases roundsLastPhase =
      ExerciseType.fourSevenEight.getPhases 4 6 := rfl
  have helapsed : ((19000 : ℚ) - roundsLastPhase.startTime.getD 0) / 1000 = 19 := by
    norm_num [roundsLastPhase, initState]
  have hcyc : getTotalCycleTime roundsLastPhase = 19 := by
    norm_num [getTotalCycleTime, getCurrentPhases, ExerciseType.getPhases,
      roundsLastPhase, initState]
  have hmod : jsMod (19 : ℚ) 19 = 0 := by
    norm_num [jsMod, jsTrunc]
  have hnc : (computeClock roundsLastPhase 19000).newCount = 0 := by
    show (findPhase (getCurrentPhases roundsLastPhase)
      (jsMod ((19000 - roundsLastPhase.startTime.getD 0) / 1000)
        (getTotalCycleTime roundsLastPhase))).1 = 0
    rw [helapsed, hcyc, hmod, hph]
    norm_num [findPhase, findPhaseAux, ExerciseType.getPhases]
  have hwrap : roundsLastPhase.count =
      (getCurrentPhases roundsLastPhase).length - 1 := by decide
  have hcr : (animate roundsLastPhase 19000).completedRounds = 1 := by
    rw [h.1, if_pos ⟨hwrap, hnc⟩]
    decide
  have hdone : (animate roundsLastPhase 19000).sessionComplete = true :=
    h.2.1.mpr ⟨hwrap, hnc, by decide⟩
  exact ⟨rfl, rfl, rfl, by decide, rfl, rfl, hcr, hdone, (h.2.2 hdone).1⟩
